import Mathlib

/-!
A shallow embedding of `src/Vector.py`, the 3D vector class of this
repository, together with proofs about its specification.

Python floating-point coordinates are modelled as real numbers.  The
cached-magnitude state of the class (`self._magnitude`) is modelled
explicitly by `VecC`; the dynamic typing of the coordinate setters
(lines 24-49 of `src/Vector.py`) is modelled by `PyVal` / `VecDyn`;
the remaining methods are pure functions of the coordinate triple
`Vec3`, which is what they compute under the cache invariant proved
for `VecC`.
-/

namespace VectorPy

open Classical

/-- Default relative tolerance of Python's `math.isclose`: `rel_tol = 1e-9`. -/
noncomputable def relTol : ℝ := 1 / 10 ^ 9

/-- Default absolute tolerance of Python's `math.isclose`: `abs_tol = 0.0`. -/
noncomputable def absTol : ℝ := 0

/-- Python's `math.isclose(a, b)` with its default tolerances:
`abs(a-b) <= max(rel_tol * max(abs(a), abs(b)), abs_tol)`. -/
def isclose (a b : ℝ) : Prop :=
  |a - b| ≤ max (relTol * max |a| |b|) absTol

/-- The coordinate triple of a `Vector` (class `Vector`, src/Vector.py):
the pure value the arithmetic methods act on. -/
@[ext]
structure Vec3 where
  x : ℝ
  y : ℝ
  z : ℝ

/-- `Vector.magnitude` (src/Vector.py lines 51-55): `math.sqrt(x**2 + y**2 + z**2)`,
the value the method returns (the caching is modelled by `VecC` below). -/
noncomputable def Vec3.magnitude (v : Vec3) : ℝ :=
  Real.sqrt (v.x ^ 2 + v.y ^ 2 + v.z ^ 2)

/-- `Vector.dot_product` (lines 64-66). -/
noncomputable def Vec3.dot_product (v w : Vec3) : ℝ :=
  v.x * w.x + v.y * w.y + v.z * w.z

/-- `Vector.cross_product` (lines 68-74). -/
noncomputable def Vec3.cross_product (v w : Vec3) : Vec3 :=
  ⟨v.y * w.z - v.z * w.y, v.z * w.x - v.x * w.z, v.x * w.y - v.y * w.x⟩

/-- `Vector.__mul__` (lines 162-164), scalar multiplication;
`__rmul__` (lines 166-168) delegates to it. -/
noncomputable def Vec3.mul (v : Vec3) (s : ℝ) : Vec3 :=
  ⟨v.x * s, v.y * s, v.z * s⟩

/-- `Vector.__sub__` (lines 154-160): variadic subtraction of a list of
vectors, coordinate-wise `self - sum(others)`. -/
noncomputable def Vec3.sub (v : Vec3) (ws : List Vec3) : Vec3 :=
  ⟨v.x - (ws.map Vec3.x).sum, v.y - (ws.map Vec3.y).sum, v.z - (ws.map Vec3.z).sum⟩

/-- `Vector.triple_vector_product` (lines 80-82):
`v * self.dot_product(w) - w * self.dot_product(v)`. -/
noncomputable def Vec3.triple_vector_product (a v w : Vec3) : Vec3 :=
  (v.mul (a.dot_product w)).sub [w.mul (a.dot_product v)]

/-- `Vector.is_zero` (lines 130-132): `math.isclose(self.magnitude(), 0.0)`. -/
def Vec3.is_zero (v : Vec3) : Prop :=
  isclose v.magnitude 0

/-- `Vector.is_unit` (lines 134-136): `math.isclose(self.magnitude(), 1.0)`. -/
def Vec3.is_unit (v : Vec3) : Prop :=
  isclose v.magnitude 1

/-- `Vector.is_parallel` (lines 138-140): `self.cross_product(v).is_zero()`. -/
def Vec3.is_parallel (v w : Vec3) : Prop :=
  (v.cross_product w).is_zero

/-- The error message of `Vector.normalize` (line 61). -/
def normalizeMsg : String := "Cannot normalize a zero vector"

/-- The error message of `Vector.projection` (line 88). -/
def projectionMsg : String := "Cannot project onto a zero vector"

/-- The sentinel string of `Vector.direction_cosine` (line 127). -/
def undefinedMsg : String := "Undefined for zero vector"

/-- `Vector.normalize` (lines 57-62): raises unless the zero check passes,
otherwise returns `self * (1 / mag)`. -/
noncomputable def Vec3.normalize (v : Vec3) : Except String Vec3 :=
  if isclose v.magnitude 0 then Except.error normalizeMsg
  else Except.ok (v.mul (1 / v.magnitude))

/-- `Vector.projection` (lines 84-89): checks `isclose(v.magnitude()**2, 0.0)`
and otherwise returns `v * (self.dot_product(v) / mag_v_sq)`. -/
noncomputable def Vec3.projection (v w : Vec3) : Except String Vec3 :=
  if isclose (w.magnitude ^ 2) 0 then Except.error projectionMsg
  else Except.ok (w.mul (v.dot_product w / w.magnitude ^ 2))

/-- `Vector.reflect` (lines 95-97): `self - 2 * self.projection(normal)`;
a failure of `projection` propagates. -/
noncomputable def Vec3.reflect (v n : Vec3) : Except String Vec3 :=
  match v.projection n with
  | Except.error e => Except.error e
  | Except.ok p => Except.ok (v.sub [p.mul 2])

/-- `Vector.direction_cosine` (lines 123-128): total — the zero-magnitude
case returns a sentinel string rather than raising. -/
noncomputable def Vec3.direction_cosine (v : Vec3) : (ℝ × ℝ × ℝ) ⊕ String :=
  if isclose v.magnitude 0 then Sum.inr undefinedMsg
  else Sum.inl (v.x / v.magnitude, v.y / v.magnitude, v.z / v.magnitude)

/-- With `abs_tol = 0`, `math.isclose(a, 0.0)` holds exactly when `a = 0`. -/
theorem isclose_zero_iff (a : ℝ) : isclose a 0 ↔ a = 0 := by
  unfold isclose relTol absTol
  rw [sub_zero, abs_zero, max_eq_left (abs_nonneg a),
    max_eq_left (by positivity : (0:ℝ) ≤ 1 / 10 ^ 9 * |a|)]
  constructor
  · intro h
    have ha := abs_nonneg a
    have h2 : |a| ≤ 0 := by nlinarith
    exact abs_eq_zero.mp (le_antisymm h2 ha)
  · rintro rfl
    simp

/-- `math.isclose` is reflexive. -/
theorem isclose_self (a : ℝ) : isclose a a := by
  unfold isclose absTol
  rw [sub_self, abs_zero]
  exact le_max_right _ 0

/-- The magnitude is a square root, hence nonnegative. -/
theorem magnitude_nonneg (v : Vec3) : 0 ≤ v.magnitude :=
  Real.sqrt_nonneg _

/-- The square of the magnitude is the sum of the squared coordinates. -/
theorem sq_magnitude (v : Vec3) : v.magnitude ^ 2 = v.x ^ 2 + v.y ^ 2 + v.z ^ 2 := by
  unfold Vec3.magnitude
  exact Real.sq_sqrt (by positivity)

/-- Scaling a vector scales its magnitude by the scalar's absolute value. -/
theorem magnitude_mul (v : Vec3) (s : ℝ) : (v.mul s).magnitude = |s| * v.magnitude := by
  simp only [Vec3.magnitude, Vec3.mul]
  rw [show (v.x * s) ^ 2 + (v.y * s) ^ 2 + (v.z * s) ^ 2
      = s ^ 2 * (v.x ^ 2 + v.y ^ 2 + v.z ^ 2) by ring]
  rw [Real.sqrt_mul (sq_nonneg s), Real.sqrt_sq_eq_abs]

/-- C4: the vector triple product computed by the direct formula
`v*(a·w) − w*(a·v)` (`triple_vector_product`) equals composing the cross
products `a × (v × w)`, coordinate-wise. -/
theorem triple_vector_product_eq_cross (a v w : Vec3) :
    a.triple_vector_product v w = a.cross_product (v.cross_product w) := by
  ext <;>
    simp only [Vec3.triple_vector_product, Vec3.cross_product, Vec3.mul, Vec3.sub,
      Vec3.dot_product, List.map_cons, List.map_nil, List.sum_cons, List.sum_nil] <;>
    ring

/-- C7: the cross product is anti-commutative — `v × w` is `w × v` scaled
by `-1` — and `(1,0,0) × (0,1,0) = (0,0,1)`. -/
theorem cross_product_anticomm (v w : Vec3) :
    v.cross_product w = (w.cross_product v).mul (-1) ∧
    (Vec3.mk 1 0 0).cross_product (Vec3.mk 0 1 0) = Vec3.mk 0 0 1 := by
  constructor
  · ext <;> simp only [Vec3.cross_product, Vec3.mul] <;> ring
  · ext <;> simp [Vec3.cross_product]

/-- The full state of a Python `Vector` object: coordinates plus the cached
magnitude `self._magnitude` (`None` modelled as `none`). -/
structure VecC where
  x : ℝ
  y : ℝ
  z : ℝ
  cache : Option ℝ

/-- `Vector.__init__` (lines 17-22): stores the coordinates and sets
`self._magnitude = None`. -/
def VecC.init (x y z : ℝ) : VecC := ⟨x, y, z, none⟩

/-- The norm `math.sqrt(self.x**2 + self.y**2 + self.z**2)` of the current
coordinates (line 54). -/
noncomputable def VecC.normVal (v : VecC) : ℝ :=
  Real.sqrt (v.x ^ 2 + v.y ^ 2 + v.z ^ 2)

/-- `Vector.magnitude` (lines 51-55) with its cache effect: the returned
value and the state after the call. -/
noncomputable def VecC.magnitude (v : VecC) : ℝ × VecC :=
  match v.cache with
  | some m => (m, v)
  | none => (v.normVal, { v with cache := some v.normVal })

/-- The `x` setter (lines 28-31): stores the new coordinate and sets
`self._magnitude = None`. -/
def VecC.setX (v : VecC) (a : ℝ) : VecC := { v with x := a, cache := none }

/-- The `y` setter (lines 37-40): stores the new coordinate and sets
`self._magnitude = None`. -/
def VecC.setY (v : VecC) (a : ℝ) : VecC := { v with y := a, cache := none }

/-- The `z` setter (lines 46-49): stores the new coordinate and sets
`self._magnitude = None`. -/
def VecC.setZ (v : VecC) (a : ℝ) : VecC := { v with z := a, cache := none }

/-- The cache invariant: a present cached magnitude equals the norm of the
current coordinates. -/
def VecC.CacheInv (v : VecC) : Prop :=
  ∀ m, v.cache = some m → m = v.normVal

/-- C1: the cache invariant holds at construction, is preserved by every
coordinate setter (each clears the cache) and by `magnitude` (which caches
the recomputed norm); under it `magnitude` returns the norm of the current
coordinates; and after a `magnitude` call followed by any coordinate
mutation, the next `magnitude` call returns the norm of the new
coordinates, never the stale cached value. -/
theorem magnitude_cache_invariant (v : VecC) (a : ℝ) (h : v.CacheInv) :
    (VecC.init v.x v.y v.z).CacheInv ∧
    (v.setX a).CacheInv ∧ (v.setY a).CacheInv ∧ (v.setZ a).CacheInv ∧
    v.magnitude.1 = v.normVal ∧
    v.magnitude.2.CacheInv ∧
    ((v.magnitude.2.setX a).magnitude.1 = Real.sqrt (a ^ 2 + v.y ^ 2 + v.z ^ 2)) ∧
    ((v.magnitude.2.setY a).magnitude.1 = Real.sqrt (v.x ^ 2 + a ^ 2 + v.z ^ 2)) ∧
    ((v.magnitude.2.setZ a).magnitude.1 = Real.sqrt (v.x ^ 2 + v.y ^ 2 + a ^ 2)) := by
  have hsetX : (v.setX a).CacheInv := by intro m hm; simp [VecC.setX] at hm
  have hsetY : (v.setY a).CacheInv := by intro m hm; simp [VecC.setY] at hm
  have hsetZ : (v.setZ a).CacheInv := by intro m hm; simp [VecC.setZ] at hm
  refine ⟨?_, hsetX, hsetY, hsetZ, ?_, ?_, ?_, ?_, ?_⟩
  · intro m hm
    simp [VecC.init] at hm
  · cases hc : v.cache with
    | none => simp [VecC.magnitude, hc]
    | some m => simpa [VecC.magnitude, hc] using h m hc
  · cases hc : v.cache with
    | none =>
      intro m hm
      simp only [VecC.magnitude, hc, Option.some.injEq] at hm
      subst hm
      simp [VecC.normVal, VecC.magnitude, hc]
    | some m => simpa [VecC.CacheInv, VecC.magnitude, hc] using h
  · cases hc : v.cache <;> simp [VecC.magnitude, hc, VecC.setX, VecC.normVal]
  · cases hc : v.cache <;> simp [VecC.magnitude, hc, VecC.setY, VecC.normVal]
  · cases hc : v.cache <;> simp [VecC.magnitude, hc, VecC.setZ, VecC.normVal]

/-- C1 witness: the cache invariant discharged and the theorem applied at
the concrete vector `Vector(1, 2, 3)` with new coordinate `10`. -/
theorem magnitude_cache_invariant_witness :
    (VecC.init 1 2 3).CacheInv ∧
    ((VecC.init (VecC.init 1 2 3).x (VecC.init 1 2 3).y (VecC.init 1 2 3).z).CacheInv ∧
    ((VecC.init 1 2 3).setX 10).CacheInv ∧ ((VecC.init 1 2 3).setY 10).CacheInv ∧
    ((VecC.init 1 2 3).setZ 10).CacheInv ∧
    (VecC.init 1 2 3).magnitude.1 = (VecC.init 1 2 3).normVal ∧
    (VecC.init 1 2 3).magnitude.2.CacheInv ∧
    (((VecC.init 1 2 3).magnitude.2.setX 10).magnitude.1 =
      Real.sqrt (10 ^ 2 + (VecC.init 1 2 3).y ^ 2 + (VecC.init 1 2 3).z ^ 2)) ∧
    (((VecC.init 1 2 3).magnitude.2.setY 10).magnitude.1 =
      Real.sqrt ((VecC.init 1 2 3).x ^ 2 + 10 ^ 2 + (VecC.init 1 2 3).z ^ 2)) ∧
    (((VecC.init 1 2 3).magnitude.2.setZ 10).magnitude.1 =
      Real.sqrt ((VecC.init 1 2 3).x ^ 2 + (VecC.init 1 2 3).y ^ 2 + 10 ^ 2))) := by
  have h : (VecC.init 1 2 3).CacheInv := by intro m hm; simp [VecC.init] at hm
  exact ⟨h, magnitude_cache_invariant (VecC.init 1 2 3) 10 h⟩

/-- C2 (counterexample to the tolerance-based reading): the vector
`(1e-15, 0, 0)` has magnitude `1e-15` — nonzero but far below the only
tolerance constant in play (`rel_tol = 1e-9`), so approximately zero under
any tolerance-based reading — yet `normalize` succeeds: with the default
`abs_tol = 0`, `math.isclose(mag, 0.0)` only fires at exactly zero. -/
theorem normalize_tolerance_counterexample :
    (Vec3.mk (1 / 10 ^ 15) 0 0).magnitude = 1 / 10 ^ 15 ∧
    (Vec3.mk (1 / 10 ^ 15) 0 0).magnitude ≠ 0 ∧
    (Vec3.mk (1 / 10 ^ 15) 0 0).magnitude < relTol ∧
    (Vec3.mk (1 / 10 ^ 15) 0 0).normalize = Except.ok (Vec3.mk 1 0 0) := by
  have hmag : (Vec3.mk (1 / 10 ^ 15) 0 0).magnitude = 1 / 10 ^ 15 := by
    simp only [Vec3.magnitude]
    rw [show ((1:ℝ) / 10 ^ 15) ^ 2 + 0 ^ 2 + 0 ^ 2 = ((1:ℝ) / 10 ^ 15) ^ 2 by ring]
    exact Real.sqrt_sq (by positivity)
  have hne : ¬ isclose (Vec3.mk (1 / 10 ^ 15) 0 0).magnitude 0 := by
    rw [isclose_zero_iff, hmag]
    norm_num
  refine ⟨hmag, by rw [hmag]; norm_num, by rw [hmag]; unfold relTol; norm_num, ?_⟩
  unfold Vec3.normalize
  rw [if_neg hne, hmag]
  congr 1
  ext <;> simp [Vec3.mul]

/-- C2 (amended): `normalize` raises the "zero vector" error exactly when
the magnitude is exactly zero — `math.isclose(mag, 0.0)` with its default
`abs_tol = 0` degenerates to an exact-zero test — and otherwise returns
`self * (1 / magnitude)`, whose magnitude is exactly 1. -/
theorem normalize_exact_zero (v : Vec3) :
    (v.normalize = Except.error normalizeMsg ↔ v.magnitude = 0) ∧
    (isclose v.magnitude 0 ↔ v.magnitude = 0) ∧
    (v.magnitude ≠ 0 →
      v.normalize = Except.ok (v.mul (1 / v.magnitude)) ∧
      (v.mul (1 / v.magnitude)).magnitude = 1) := by
  have hiff := isclose_zero_iff v.magnitude
  by_cases h0 : v.magnitude = 0
  · refine ⟨⟨fun _ => h0, fun _ => ?_⟩, hiff, fun hne => absurd h0 hne⟩
    unfold Vec3.normalize
    rw [if_pos (hiff.mpr h0)]
  · have hcond : ¬ isclose v.magnitude 0 := fun hc => h0 (hiff.mp hc)
    have hpos : 0 < v.magnitude := (magnitude_nonneg v).lt_of_ne (Ne.symm h0)
    refine ⟨⟨fun hcontra => ?_, fun hh => absurd hh h0⟩, hiff, fun _ => ⟨?_, ?_⟩⟩
    · unfold Vec3.normalize at hcontra
      rw [if_neg hcond] at hcontra
      exact Except.noConfusion hcontra
    · unfold Vec3.normalize
      rw [if_neg hcond]
    · rw [magnitude_mul, abs_of_pos (one_div_pos.mpr hpos)]
      exact one_div_mul_cancel h0

/-- C2 witness: the non-raising branch of the amended claim exercised at
the concrete vector `(3, 4, 0)`, of magnitude 5. -/
theorem normalize_exact_zero_witness :
    (Vec3.mk 3 4 0).magnitude ≠ 0 ∧
    (Vec3.mk 3 4 0).normalize =
      Except.ok ((Vec3.mk 3 4 0).mul (1 / (Vec3.mk 3 4 0).magnitude)) ∧
    ((Vec3.mk 3 4 0).mul (1 / (Vec3.mk 3 4 0).magnitude)).magnitude = 1 := by
  have hmag : (Vec3.mk 3 4 0).magnitude = 5 := by
    simp only [Vec3.magnitude]
    rw [show (3:ℝ) ^ 2 + 4 ^ 2 + 0 ^ 2 = 5 ^ 2 by norm_num]
    exact Real.sqrt_sq (by norm_num)
  have h0 : (Vec3.mk 3 4 0).magnitude ≠ 0 := by rw [hmag]; norm_num
  exact ⟨h0, (normalize_exact_zero (Vec3.mk 3 4 0)).2.2 h0⟩

/-- C5: for every vector `v` and every unit normal `n`, reflecting twice
returns the original vector exactly (hence approximately): `reflect` never
raises for a unit normal, and `v.reflect(n).reflect(n) = v`. -/
theorem reflect_involution (v n : Vec3) (h : n.is_unit) :
    ∃ w, v.reflect n = Except.ok w ∧ w.reflect n = Except.ok v := by
  have hm0 : n.magnitude ≠ 0 := by
    intro h0
    rw [Vec3.is_unit, h0] at h
    unfold isclose relTol absTol at h
    rw [show |(0:ℝ) - 1| = 1 by norm_num] at h
    rw [show max |(0:ℝ)| |(1:ℝ)| = 1 by norm_num] at h
    norm_num at h
  have hsq : n.magnitude ^ 2 = n.x ^ 2 + n.y ^ 2 + n.z ^ 2 := sq_magnitude n
  have hsumne : n.x ^ 2 + n.y ^ 2 + n.z ^ 2 ≠ 0 := hsq ▸ pow_ne_zero 2 hm0
  have hcond : ¬ isclose (n.magnitude ^ 2) 0 := by
    rw [isclose_zero_iff]
    exact pow_ne_zero 2 hm0
  refine ⟨v.sub [(n.mul (v.dot_product n / n.magnitude ^ 2)).mul 2], ?_, ?_⟩
  · simp only [Vec3.reflect, Vec3.projection, if_neg hcond]
  · simp only [Vec3.reflect, Vec3.projection, if_neg hcond, Except.ok.injEq]
    ext <;>
      simp only [Vec3.sub, Vec3.mul, Vec3.dot_product, List.map_cons, List.map_nil,
        List.sum_cons, List.sum_nil, hsq] <;>
      field_simp <;>
      ring

/-- C5 witness: the double reflection applied at the concrete vector
`(1, 2, 3)` and the concrete unit normal `(0, 0, 1)`. -/
theorem reflect_involution_witness :
    (Vec3.mk 0 0 1).is_unit ∧
    ∃ w, (Vec3.mk 1 2 3).reflect (Vec3.mk 0 0 1) = Except.ok w ∧
      w.reflect (Vec3.mk 0 0 1) = Except.ok (Vec3.mk 1 2 3) := by
  have hu : (Vec3.mk 0 0 1).is_unit := by
    rw [Vec3.is_unit]
    have hmag : (Vec3.mk 0 0 1).magnitude = 1 := by
      simp only [Vec3.magnitude]
      rw [show (0:ℝ) ^ 2 + 0 ^ 2 + 1 ^ 2 = 1 by norm_num]
      exact Real.sqrt_one
    rw [hmag]
    exact isclose_self 1
  exact ⟨hu, reflect_involution (Vec3.mk 1 2 3) (Vec3.mk 0 0 1) hu⟩

/-- C6: projecting any vector onto a non-zero vector `w` succeeds and the
result is parallel to `w` in the sense of `is_parallel` (its cross product
with `w` is the zero vector, which `is_zero` accepts). -/
theorem projection_is_parallel (v w : Vec3) (h : ¬ w.is_zero) :
    ∃ p, v.projection w = Except.ok p ∧ p.is_parallel w := by
  have hm0 : w.magnitude ≠ 0 := fun h0 => h ((isclose_zero_iff _).mpr h0)
  have hcond : ¬ isclose (w.magnitude ^ 2) 0 := by
    rw [isclose_zero_iff]
    exact pow_ne_zero 2 hm0
  refine ⟨w.mul (v.dot_product w / w.magnitude ^ 2), ?_, ?_⟩
  · unfold Vec3.projection
    rw [if_neg hcond]
  · rw [Vec3.is_parallel, Vec3.is_zero]
    have hcross : (w.mul (v.dot_product w / w.magnitude ^ 2)).cross_product w
        = Vec3.mk 0 0 0 := by
      ext <;> simp only [Vec3.cross_product, Vec3.mul] <;> ring
    rw [hcross, isclose_zero_iff]
    simp [Vec3.magnitude]

/-- C6 witness: the projection of `(1, 2, 3)` onto the concrete non-zero
vector `(2, 0, 0)`. -/
theorem projection_is_parallel_witness :
    ¬ (Vec3.mk 2 0 0).is_zero ∧
    ∃ p, (Vec3.mk 1 2 3).projection (Vec3.mk 2 0 0) = Except.ok p ∧
      p.is_parallel (Vec3.mk 2 0 0) := by
  have hz : ¬ (Vec3.mk 2 0 0).is_zero := by
    rw [Vec3.is_zero]
    have hmag : (Vec3.mk 2 0 0).magnitude = 2 := by
      simp only [Vec3.magnitude]
      rw [show (2:ℝ) ^ 2 + 0 ^ 2 + 0 ^ 2 = 2 ^ 2 by norm_num]
      exact Real.sqrt_sq (by norm_num)
    rw [hmag, isclose_zero_iff]
    norm_num
  exact ⟨hz, projection_is_parallel (Vec3.mk 1 2 3) (Vec3.mk 2 0 0) hz⟩

/-- C8: `direction_cosine` is total (it returns a value in every case,
never raising): the sentinel string comes back exactly when the magnitude
passes the `isclose` zero check, and otherwise the triple
`(x/|v|, y/|v|, z/|v|)` is returned. -/
theorem direction_cosine_sentinel (v : Vec3) :
    (v.direction_cosine = Sum.inr undefinedMsg ↔ isclose v.magnitude 0) ∧
    (¬ isclose v.magnitude 0 →
      v.direction_cosine =
        Sum.inl (v.x / v.magnitude, v.y / v.magnitude, v.z / v.magnitude)) := by
  by_cases hc : isclose v.magnitude 0
  · refine ⟨⟨fun _ => hc, fun _ => ?_⟩, fun hn => absurd hc hn⟩
    unfold Vec3.direction_cosine
    rw [if_pos hc]
  · refine ⟨⟨fun hcontra => ?_, fun hcc => absurd hcc hc⟩, fun _ => ?_⟩
    · unfold Vec3.direction_cosine at hcontra
      rw [if_neg hc] at hcontra
      exact Sum.noConfusion hcontra
    · unfold Vec3.direction_cosine
      rw [if_neg hc]

/-- C8 witness: the non-sentinel branch exercised at the concrete non-zero
vector `(0, 0, 2)`. -/
theorem direction_cosine_sentinel_witness :
    ¬ isclose (Vec3.mk 0 0 2).magnitude 0 ∧
    (Vec3.mk 0 0 2).direction_cosine =
      Sum.inl ((Vec3.mk 0 0 2).x / (Vec3.mk 0 0 2).magnitude,
        (Vec3.mk 0 0 2).y / (Vec3.mk 0 0 2).magnitude,
        (Vec3.mk 0 0 2).z / (Vec3.mk 0 0 2).magnitude) := by
  have hmag : (Vec3.mk 0 0 2).magnitude = 2 := by
    simp only [Vec3.magnitude]
    rw [show (0:ℝ) ^ 2 + 0 ^ 2 + 2 ^ 2 = 2 ^ 2 by norm_num]
    exact Real.sqrt_sq (by norm_num)
  have hne : ¬ isclose (Vec3.mk 0 0 2).magnitude 0 := by
    rw [hmag, isclose_zero_iff]
    norm_num
  exact ⟨hne, (direction_cosine_sentinel (Vec3.mk 0 0 2)).2 hne⟩

/-- A Python value compared against a `Vector` by `__eq__` (lines 170-178):
either a `Vector` instance or some non-`Vector` value. -/
inductive PyObj where
  | vec (w : Vec3)
  | intVal (n : ℤ)
  | strVal (s : String)
  | noneVal

/-- The `isinstance(v, Vector)` test of `__eq__` (line 172). -/
def PyObj.isVector : PyObj → Bool
  | .vec _ => true
  | _ => false

/-- `Vector.__eq__` (lines 170-178): `False` for a non-`Vector` argument,
otherwise `math.isclose` on each of the three coordinate pairs. -/
def pyEq (v : Vec3) (o : PyObj) : Prop :=
  match o with
  | .vec w => isclose v.x w.x ∧ isclose v.y w.y ∧ isclose v.z w.z
  | _ => False

/-- C9: two `Vector` instances compare equal exactly when each coordinate
pair satisfies `math.isclose`'s combined relative (`1e-9`) and absolute
(`0.0`) tolerance bound; this is coarser than exact equality, as the
distinct concrete pair `(1,0,0)` and `(1+1e-10,0,0)` compares equal. -/
theorem eq_isclose_coordinates (a b : Vec3) :
    (pyEq a (PyObj.vec b) ↔
      (|a.x - b.x| ≤ max (relTol * max |a.x| |b.x|) absTol ∧
       |a.y - b.y| ≤ max (relTol * max |a.y| |b.y|) absTol ∧
       |a.z - b.z| ≤ max (relTol * max |a.z| |b.z|) absTol)) ∧
    (pyEq (Vec3.mk 1 0 0) (PyObj.vec (Vec3.mk (1 + 1 / 10 ^ 10) 0 0)) ∧
      Vec3.mk 1 0 0 ≠ Vec3.mk (1 + 1 / 10 ^ 10) 0 0) := by
  refine ⟨Iff.rfl, ⟨?_, ?_, ?_⟩, ?_⟩
  · unfold isclose relTol absTol
    rw [show |(1:ℝ) - (1 + 1 / 10 ^ 10)| = 1 / 10 ^ 10 by
      rw [show (1:ℝ) - (1 + 1 / 10 ^ 10) = -(1 / 10 ^ 10) by ring, abs_neg]
      exact abs_of_pos (by norm_num)]
    rw [show max |(1:ℝ)| |(1:ℝ) + 1 / 10 ^ 10| = 1 + 1 / 10 ^ 10 by
      rw [abs_of_pos (by norm_num : (0:ℝ) < 1), abs_of_pos (by norm_num)]
      exact max_eq_right (by norm_num)]
    rw [max_eq_left (by positivity)]
    norm_num
  · exact isclose_self 0
  · exact isclose_self 0
  · intro hcontra
    have := congrArg Vec3.x hcontra
    simp only at this
    norm_num at this

/-- C10: comparing a `Vector` with any non-`Vector` value returns `False`
(no error is raised and no equality is claimed), whatever the coordinates. -/
theorem eq_non_vector_false (v : Vec3) (o : PyObj) (h : o.isVector = false) :
    pyEq v o = False := by
  cases o with
  | vec w => exact absurd h (by simp [PyObj.isVector])
  | intVal n => rfl
  | strVal s => rfl
  | noneVal => rfl

/-- C10 witness: the comparison of `Vector(1, 2, 3)` with the concrete
non-`Vector` value `7`. -/
theorem eq_non_vector_false_witness :
    PyObj.isVector (PyObj.intVal 7) = false ∧
    pyEq (Vec3.mk 1 2 3) (PyObj.intVal 7) = False :=
  ⟨rfl, eq_non_vector_false (Vec3.mk 1 2 3) (PyObj.intVal 7) rfl⟩

/-- A numeric Python value as a coordinate setter receives it: an `int`
or a `float`. -/
inductive PyVal where
  | intV (n : ℤ)
  | floatV (r : ℝ)

/-- Python's `float(...)` conversion on a numeric value: always yields a
`float`. -/
def pyFloat : PyVal → PyVal
  | .intV n => .floatV n
  | .floatV r => .floatV r

/-- The state of a Python `Vector` with the dynamic types of the stored
coordinates kept: what the coordinate setters actually store. -/
structure VecDyn where
  x : PyVal
  y : PyVal
  z : PyVal
  cache : Option ℝ

/-- The `x` setter (lines 28-31): `self._x = float(new_x)`, cache cleared. -/
def VecDyn.setX (v : VecDyn) (a : PyVal) : VecDyn :=
  { v with x := pyFloat a, cache := none }

/-- The `y` setter (lines 37-40): `self._y = float(new_y)`, cache cleared. -/
def VecDyn.setY (v : VecDyn) (a : PyVal) : VecDyn :=
  { v with y := pyFloat a, cache := none }

/-- The `z` setter (lines 46-49): `self._z = new_z` — the value is stored
WITHOUT `float(...)` conversion, unlike the `x` and `y` setters and unlike
the constructor (lines 19-21), which all convert. Cache still cleared. -/
def VecDyn.setZ (v : VecDyn) (a : PyVal) : VecDyn :=
  { v with z := a, cache := none }

/-- C3 evaluated at the failing input: assigning the Python int `5`
through the `z` setter stores the raw int, not the converted float `5.0`
that the claim (and the `x`/`y` setters, shown alongside) would store. -/
theorem setZ_stores_unconverted :
    ((VecDyn.mk (PyVal.floatV 1) (PyVal.floatV 2) (PyVal.floatV 3) none).setZ
        (PyVal.intV 5)).z = PyVal.intV 5 ∧
    PyVal.intV 5 ≠ pyFloat (PyVal.intV 5) ∧
    ((VecDyn.mk (PyVal.floatV 1) (PyVal.floatV 2) (PyVal.floatV 3) none).setX
        (PyVal.intV 5)).x = PyVal.floatV 5 ∧
    ((VecDyn.mk (PyVal.floatV 1) (PyVal.floatV 2) (PyVal.floatV 3) none).setY
        (PyVal.intV 5)).y = PyVal.floatV 5 := by
  refine ⟨rfl, ?_, ?_, ?_⟩
  · simp [pyFloat]
  · simp [VecDyn.setX, pyFloat]
  · simp [VecDyn.setY, pyFloat]

end VectorPy
